import Mathlib

/- Verification of the spectrumfitter repository (spectrum_fitter.py and kw.py).

   The Python source is shallowly embedded over the rational numbers: machine
   floats are modelled as exact rationals, numpy arrays as lists, and Python
   exceptions (TypeError, IndexError, AssertionError) as `Except String`.
   External library functions imported from numpy/scipy (sqrt, exp, erfcx,
   ifft, interp, power with a non-integer exponent) are not code of this
   repository; the embedding is parametric in them through the `Lib` record,
   so every theorem below holds for an arbitrary interpretation of those
   library primitives unless it fixes a concrete one. -/

/-- Complex numbers with rational coordinates, used to embed numpy complex
arithmetic exactly. -/
structure CQ where
  re : ℚ
  im : ℚ
deriving DecidableEq, Repr

instance : Zero CQ := ⟨⟨0, 0⟩⟩

instance : One CQ := ⟨⟨1, 0⟩⟩

instance : Add CQ := ⟨fun a b => ⟨a.re + b.re, a.im + b.im⟩⟩

instance : Neg CQ := ⟨fun a => ⟨-a.re, -a.im⟩⟩

instance : Sub CQ := ⟨fun a b => ⟨a.re - b.re, a.im - b.im⟩⟩

instance : Mul CQ := ⟨fun a b => ⟨a.re * b.re - a.im * b.im, a.re * b.im + a.im * b.re⟩⟩

/-- Complex inverse: `z⁻¹ = conj z / |z|²` (0 at 0, matching ℚ convention). -/
instance : Inv CQ := ⟨fun a => ⟨a.re / (a.re ^ 2 + a.im ^ 2), -a.im / (a.re ^ 2 + a.im ^ 2)⟩⟩

instance : Div CQ := ⟨fun a b => a * b⁻¹⟩

/-- Natural-number power on `CQ`. -/
def CQ.npow (z : CQ) : ℕ → CQ
  | 0 => 1
  | n + 1 => CQ.npow z n * z

instance : Pow CQ ℕ := ⟨CQ.npow⟩

/-- Embeds a rational (a real scalar in the Python code) as a complex value. -/
def CQ.ofQ (q : ℚ) : CQ := ⟨q, 0⟩

/-- The imaginary unit, Python's `1j`. -/
def CQ.iu : CQ := ⟨0, 1⟩

/-- Python's `==` between a number and a string: always `False` (no error). -/
def pyEqNumStr (_q : ℚ) (_s : String) : Bool := false

/-- Applying a Python float as a function, as in `(a)(b)` with `a` a number:
always raises `TypeError`.  The argument here is the (already evaluated)
numpy array the float is applied to. -/
def pyCallNum (_q : ℚ) (_arg : List ℚ) : Except String (List ℚ) :=
  .error "TypeError: float object is not callable"

/-- Python's `int()` on a float: truncation toward zero. -/
def pyInt (q : ℚ) : ℤ := if 0 ≤ q then ⌊q⌋ else ⌈q⌉

/-- Decidable equality for `Except`, needed so witnesses can be checked by
`decide`. -/
instance exceptDecEq {ε α : Type} [DecidableEq ε] [DecidableEq α] :
    DecidableEq (Except ε α) := fun a b =>
  match a, b with
  | .ok x, .ok y =>
      decidable_of_iff (x = y) (by constructor
                                   · intro h; rw [h]
                                   · intro h; injection h)
  | .error e, .error f =>
      decidable_of_iff (e = f) (by constructor
                                   · intro h; rw [h]
                                   · intro h; injection h)
  | .ok _, .error _ => .isFalse (fun hh => Except.noConfusion hh)
  | .error _, .ok _ => .isFalse (fun hh => Except.noConfusion hh)

/-- Interpretations of the numpy/scipy library primitives the lineshape code
calls.  These functions are imported by `spectrum_fitter.py`, not defined in
it, so the embedding is parametric in them:
* `sqrtQ`    — `numpy.sqrt` on a real scalar;
* `csqrt`    — `numpy.sqrt` on a complex value (elementwise on arrays);
* `expQ`     — `numpy.exp` on a real scalar (elementwise on arrays);
* `log2Q`    — `numpy.log2`;
* `rpowQ`    — `x ** y` for a float exponent `y`;
* `erfcx`    — `scipy.special.erfcx` on a complex value;
* `ifftQ`    — `numpy.fft.ifft` of a real array with an explicit size;
* `interpQ`  — `numpy.interp x xp fp`. -/
structure Lib where
  sqrtQ : ℚ → ℚ
  csqrt : CQ → CQ
  expQ : ℚ → ℚ
  log2Q : ℚ → ℚ
  rpowQ : ℚ → ℚ → ℚ
  erfcx : CQ → CQ
  ifftQ : List ℚ → ℕ → List CQ
  interpQ : List ℚ → List ℚ → List ℚ → List ℚ

/-- Which Python lineshape class an embedded lineshape object belongs to.
The incomplete `DistributionOfDebye` class (its `__call__` is commented out
in the source) is not represented. -/
inductive LSKind where
  | debye | dho | brendelDHO | stretchedExp | powerLawDebye
  | coleCole | vanVleck | gaussian | const
deriving DecidableEq, Repr

/-- An embedded lineshape object: the attributes a `Lineshape` instance holds
after `__init__`.  `f` is the extra attribute `BrendelDHO.__init__` creates
(kept at 0 for the other classes, which never read or write it); `convfac`
is the extra attribute of `PowerLawDebye` (1 elsewhere). -/
structure LS where
  p : List ℚ
  bounds : List (ℚ × ℚ)
  name : String
  type : String
  f : ℚ
  convfac : ℚ
  kind : LSKind
deriving DecidableEq, Repr

/-- Placeholder object for out-of-range list indexing in the embedding; the
theorems below only index within range, where Python would not raise. -/
def dfltLS : LS := ⟨[], [], "", "", 0, 1, .debye⟩

/-- `Debye(params, bounds, name)`. -/
def mkDebye (params : List ℚ) (bounds : List (ℚ × ℚ)) (name : String) : LS :=
  ⟨params, bounds, name, "Debye", 0, 1, .debye⟩

/-- `DHO(params, bounds, name)`. -/
def mkDHO (params : List ℚ) (bounds : List (ℚ × ℚ)) (name : String) : LS :=
  ⟨params, bounds, name, "DHO", 0, 1, .dho⟩

/-- `BrendelDHO(params, bounds, name)`; `__init__` sets `self.f = 0`. -/
def mkBrendelDHO (params : List ℚ) (bounds : List (ℚ × ℚ)) (name : String) : LS :=
  ⟨params, bounds, name, "BrendelDHO", 0, 1, .brendelDHO⟩

/-- `StretchedExp(params, bounds, name)`. -/
def mkStretchedExp (params : List ℚ) (bounds : List (ℚ × ℚ)) (name : String) : LS :=
  ⟨params, bounds, name, "StretchedExp", 0, 1, .stretchedExp⟩

/-- `PowerLawDebye(params, bounds, name)`; `__init__` sets `self.convfac = 1.0`. -/
def mkPowerLawDebye (params : List ℚ) (bounds : List (ℚ × ℚ)) (name : String) : LS :=
  ⟨params, bounds, name, "PowerLawDebye", 0, 1, .powerLawDebye⟩

/-- `ColeCole(params, bounds, name)`; note the source sets `self.type = "Debye"`. -/
def mkColeCole (params : List ℚ) (bounds : List (ℚ × ℚ)) (name : String) : LS :=
  ⟨params, bounds, name, "Debye", 0, 1, .coleCole⟩

/-- `VanVleck(params, bounds, name)`. -/
def mkVanVleck (params : List ℚ) (bounds : List (ℚ × ℚ)) (name : String) : LS :=
  ⟨params, bounds, name, "VanVleck", 0, 1, .vanVleck⟩

/-- `Gaussian(params, bounds, name)`; note the source sets `self.type = "BRO"`. -/
def mkGaussian (params : List ℚ) (bounds : List (ℚ × ℚ)) (name : String) : LS :=
  ⟨params, bounds, name, "BRO", 0, 1, .gaussian⟩

/-- `constant(params, bounds, name)`; the source sets `self.type = "Constant"`. -/
def mkConstant (params : List ℚ) (bounds : List (ℚ × ℚ)) (name : String) : LS :=
  ⟨params, bounds, name, "Constant", 0, 1, .const⟩

/-- Python's `max` over a (nonempty) numpy array. -/
def listMax (w : List ℚ) : ℚ := w.foldl max (w.headD 0)

/-- numpy `diff`: consecutive differences `x[i+1] - x[i]`. -/
def listDiff (xs : List ℚ) : List ℚ := List.zipWith (fun b a => b - a) (xs.drop 1) xs

/-- `Debye.__call__`: `rp = p0*p1**2/(p1**2 + w**2)`, `cp = rp*w/p1`.
The lineshape object is returned unchanged (the method assigns no attribute). -/
def Debye_call (l : LS) (w : List ℚ) : Except String ((List ℚ × List ℚ) × LS) :=
  let p0 := l.p.getD 0 0
  let p1 := l.p.getD 1 0
  let rp := w.map fun wi => p0 * p1 ^ 2 / (p1 ^ 2 + wi ^ 2)
  let cp := List.zipWith (fun r wi => r * wi / p1) rp w
  .ok ((rp, cp), l)

/-- `DHO.__call__`: the damped-harmonic-oscillator formulas. -/
def DHO_call (l : LS) (w : List ℚ) : Except String ((List ℚ × List ℚ) × LS) :=
  let p0 := l.p.getD 0 0
  let p1 := l.p.getD 1 0
  let p2 := l.p.getD 2 0
  let rp := w.map fun wi => p0 * p1 ^ 2 * (p1 ^ 2 - wi ^ 2) / ((p1 ^ 2 - wi ^ 2) ^ 2 + wi ^ 2 * p2 ^ 2)
  let cp := w.map fun wi => p0 * p1 ^ 2 * p2 * wi / ((p1 ^ 2 - wi ^ 2) ^ 2 + wi ^ 2 * p2 ^ 2)
  .ok ((rp, cp), l)

/-- `BrendelDHO.__call__`.  Follows the source line by line:
`a = sqrt(w**2 - 1j*g*w)`, then `a = a.real - 1j*a.imag`,
`prefac = 1j*sqrt(3.14149)*p0*x0**2/(sqrt(22)*sigma)`,
`eps = prefac*exp(-.5)*(1/a)*(erfcx(-1j*(a-x0)/sigma) + erfcx(-1j*(a+x0)/sigma))`,
and then the method ASSIGNS `self.f = eps.real[1]` (an `IndexError` when `w`
has fewer than two entries) before returning `(eps.real, eps.imag)`. -/
def BrendelDHO_call (lib : Lib) (l : LS) (w : List ℚ) :
    Except String ((List ℚ × List ℚ) × LS) :=
  let sigma := l.p.getD 3 0
  let x0 := l.p.getD 1 0
  let g := l.p.getD 2 0
  let a := w.map fun wi => lib.csqrt ⟨wi ^ 2, -(g * wi)⟩
  let a := a.map fun z => ⟨z.re, -z.im⟩
  let prefac : CQ := ⟨0, lib.sqrtQ 3.14149 * l.p.getD 0 0 * x0 ^ 2 / (lib.sqrtQ 22 * sigma)⟩
  let eps := a.map fun ai =>
    prefac * CQ.ofQ (lib.expQ (-0.5)) * ai⁻¹ *
      (lib.erfcx (-CQ.iu * (ai - CQ.ofQ x0) / CQ.ofQ sigma) +
       lib.erfcx (-CQ.iu * (ai + CQ.ofQ x0) / CQ.ofQ sigma))
  if 2 ≤ eps.length then
    .ok ((eps.map fun z => z.re, eps.map fun z => z.im),
         { l with f := (eps.map fun z => z.re).getD 1 0 })
  else .error "IndexError: index 1 is out of bounds"

/-- `StretchedExp.calc_eps`: builds a time-domain stretched-exponential
correlation function and one-sided-Fourier-transforms it via `ifft`. -/
def StretchedExp_calc_eps (lib : Lib) (l : LS) (w : List ℚ) : List ℚ × List CQ :=
  let deltaeps := l.p.getD 0 0
  let tau := l.p.getD 1 0
  let beta := l.p.getD 2 0
  let timestep := 1 / (2 * 3.141 * listMax w)
  let maxt := 3 * tau
  let npts := (pyInt (maxt / timestep)).toNat
  let times := (List.range npts).map fun j => (j : ℚ) * timestep
  let corr_fun := times.map fun t => lib.expQ (-(lib.rpowQ (t / tau) beta))
  let nextpow2 := (pyInt ((2 : ℚ) ^ (⌈lib.log2Q (npts : ℚ)⌉ : ℤ))).toNat
  let f := (List.range npts).map fun j => 1 / (2.99 * 0.01) * (j : ℚ) / (timestep * (nextpow2 : ℚ))
  let tderiv := (listDiff corr_fun).map fun d => -d / timestep
  let eps_omega := (lib.ifftQ tderiv nextpow2).map fun z => CQ.ofQ deltaeps * z
  (f, eps_omega.take npts)

/-- `StretchedExp.__call__`: interpolates the real and imaginary parts of
`calc_eps` back onto the requested frequency grid.  No attribute is assigned. -/
def StretchedExp_call (lib : Lib) (l : LS) (w : List ℚ) :
    Except String ((List ℚ × List ℚ) × LS) :=
  let fe := StretchedExp_calc_eps lib l w
  let rp := lib.interpQ w fe.1 (fe.2.map fun z => z.re)
  let cp := lib.interpQ w fe.1 (fe.2.map fun z => z.im)
  .ok ((rp, cp), l)

/-- `PowerLawDebye.__call__`: a Debye lineshape multiplied by the wing factor
`1 + A*(w*tau)**q` (the masking of low frequencies is commented out in the
source, so `HighFreqOmegas` is just `w`). -/
def PowerLawDebye_call (lib : Lib) (l : LS) (w : List ℚ) :
    Except String ((List ℚ × List ℚ) × LS) :=
  let A := l.p.getD 2 0
  let q := l.p.getD 3 0
  let tau := l.convfac / l.p.getD 1 0
  let wing := w.map fun wi => 1 + A * lib.rpowQ (wi * tau) q
  let rp := List.zipWith (fun wg wi => wg * l.p.getD 0 0 / (1 + (tau * wi) ^ 2)) wing w
  let cp := List.zipWith (fun wg wi => wg * l.p.getD 0 0 * wi * tau / (1 + (tau * wi) ^ 2)) wing w
  .ok ((rp, cp), l)

/-- `ColeCole.__call__`: the body is the plain Debye formula; the exponent
parameter `p[2]` (alpha) is never read. -/
def ColeCole_call (l : LS) (w : List ℚ) : Except String ((List ℚ × List ℚ) × LS) :=
  let p0 := l.p.getD 0 0
  let p1 := l.p.getD 1 0
  let rp := w.map fun wi => p0 * p1 ^ 2 / (p1 ^ 2 + wi ^ 2)
  let cp := List.zipWith (fun r wi => r * wi / p1) rp w
  .ok ((rp, cp), l)

/-- `VanVleck.__call__`.  The source reads
`rp = .5*p0*(p1**2 + p2**2)( 1/((p1-w)**2+p2**2) + 1/((p1+w)**2+p2**2) )`:
there is no `*` between `(p1**2 + p2**2)` and the bracket, so the float
`p1**2 + p2**2` is applied as a function to the array, which raises
`TypeError` before `cp` is ever computed. -/
def VanVleck_call (l : LS) (w : List ℚ) : Except String ((List ℚ × List ℚ) × LS) :=
  let p0 := l.p.getD 0 0
  let p1 := l.p.getD 1 0
  let p2 := l.p.getD 2 0
  let bracket := w.map fun wi => 1 / ((p1 - wi) ^ 2 + p2 ^ 2) + 1 / ((p1 + wi) ^ 2 + p2 ^ 2)
  match pyCallNum (p1 ^ 2 + p2 ^ 2) bracket with
  | .error e => .error e
  | .ok t =>
      let rp := t.map fun x => 0.5 * p0 * x
      let cp := List.zipWith (fun wi b => 0.5 * p0 * p2 * wi * b) w bracket
      .ok ((rp, cp), l)

/-- `Gaussian.__call__`: textually identical to `VanVleck.__call__`, with the
same missing `*`, so it raises `TypeError` as well. -/
def Gaussian_call (l : LS) (w : List ℚ) : Except String ((List ℚ × List ℚ) × LS) :=
  let p0 := l.p.getD 0 0
  let p1 := l.p.getD 1 0
  let p2 := l.p.getD 2 0
  let bracket := w.map fun wi => 1 / ((p1 - wi) ^ 2 + p2 ^ 2) + 1 / ((p1 + wi) ^ 2 + p2 ^ 2)
  match pyCallNum (p1 ^ 2 + p2 ^ 2) bracket with
  | .error e => .error e
  | .ok t =>
      let rp := t.map fun x => 0.5 * p0 * x
      let cp := List.zipWith (fun wi b => 0.5 * p0 * p2 * wi * b) w bracket
      .ok ((rp, cp), l)

/-- `constant.__call__`: `rp = 0*w + p0`, `cp = 0*w`. -/
def constant_call (l : LS) (w : List ℚ) : Except String ((List ℚ × List ℚ) × LS) :=
  let rp := w.map fun wi => 0 * wi + l.p.getD 0 0
  let cp := w.map fun wi => 0 * wi
  .ok ((rp, cp), l)

/-- Dispatch of `lineshape(w)` on the class of the object.  Returns the pair
of arrays together with the (possibly updated) object. -/
def evalLS (lib : Lib) (l : LS) (w : List ℚ) : Except String ((List ℚ × List ℚ) × LS) :=
  match l.kind with
  | .debye => Debye_call l w
  | .dho => DHO_call l w
  | .brendelDHO => BrendelDHO_call lib l w
  | .stretchedExp => StretchedExp_call lib l w
  | .powerLawDebye => PowerLawDebye_call lib l w
  | .coleCole => ColeCole_call l w
  | .vanVleck => VanVleck_call l w
  | .gaussian => Gaussian_call l w
  | .const => constant_call l w

/-- An embedded `SpectralModel` object: `__init__` stores the `lineshapes`
list it is given and sets `numlineshapes = 0` and `RMS_error = 0`. -/
structure SpectralModel where
  lineshapes : List LS
  numlineshapes : ℕ
  RMS_error : ℚ
deriving DecidableEq, Repr

namespace SpectralModel

/-- `SpectralModel.__init__(lineshapes)`: note `numlineshapes` starts at 0
even when `lineshapes` is nonempty. -/
def init (lineshapes : List LS) : SpectralModel := ⟨lineshapes, 0, 0⟩

/-- `SpectralModel.add`: appends the lineshape and increments the counter. -/
def add (m : SpectralModel) (l : LS) : SpectralModel :=
  { m with lineshapes := m.lineshapes ++ [l], numlineshapes := m.numlineshapes + 1 }

/-- Helper for `setparams`: each lineshape in order overwrites its `len(l.p)`
parameter entries with the next entries of `params`.  Python raises
`IndexError` when `params` runs out before a lineshape's slots are filled. -/
def setparamsLS : List LS → List ℚ → Except String (List LS)
  | [], _ => .ok []
  | l :: ls, ps =>
      if l.p.length ≤ ps.length then
        match setparamsLS ls (ps.drop l.p.length) with
        | .error e => .error e
        | .ok rest => .ok ({ l with p := ps.take l.p.length } :: rest)
      else .error "IndexError: list index out of range"

/-- `SpectralModel.setparams`. -/
def setparams (m : SpectralModel) (params : List ℚ) : Except String SpectralModel :=
  match setparamsLS m.lineshapes params with
  | .error e => .error e
  | .ok ls => .ok { m with lineshapes := ls }

/-- `SpectralModel.getparams`: concatenates the parameter lists. -/
def getparams (m : SpectralModel) : List ℚ :=
  m.lineshapes.foldl (fun acc l => acc ++ l.p) []

/-- `SpectralModel.getbounds`: concatenates the bounds lists. -/
def getbounds (m : SpectralModel) : List (ℚ × ℚ) :=
  m.lineshapes.foldl (fun acc l => acc ++ l.bounds) []

/-- `SpectralModel.getfreqs`: `freqs[i] = lineshapes[i].p[1]` for
`i in range(numlineshapes)` (NOT over the whole `lineshapes` list). -/
def getfreqs (m : SpectralModel) : List ℚ :=
  (List.range m.numlineshapes).map fun i => (m.lineshapes.getD i dfltLS).p.getD 1 0

/-- `SpectralModel.fsum`: sums oscillator strengths over
`range(numlineshapes)`.  The guard compares the number `p[0]` with the
string `"BrendelDHO"`, which in Python is always `False`, so the `else`
branch (adding `p[0]`) is the one taken. -/
def fsum (m : SpectralModel) : ℚ :=
  (List.range m.numlineshapes).foldl
    (fun acc i =>
      let l := m.lineshapes.getD i dfltLS
      if pyEqNumStr (l.p.getD 0 0) "BrendelDHO" then acc + l.f
      else acc + l.p.getD 0 0)
    0

end SpectralModel

/-- Elementwise sum of two numpy arrays of equal length. -/
def zipAdd (a b : List ℚ) : List ℚ := List.zipWith (fun x y => x + y) a b

/-- Loop body of `SpectralModel.__call__`: starting from the accumulators
`rp`, `cp` (initially zero arrays), each lineshape is called in order, its
parts are added elementwise, and the (possibly updated) lineshape objects
are collected back. -/
def modelCallAux (lib : Lib) (w : List ℚ) :
    List LS → List ℚ → List ℚ → Except String ((List ℚ × List ℚ) × List LS)
  | [], rp, cp => .ok ((rp, cp), [])
  | l :: ls, rp, cp =>
      match evalLS lib l w with
      | .error e => .error e
      | .ok ((rpPart, cpPart), l') =>
          match modelCallAux lib w ls (zipAdd rp rpPart) (zipAdd cp cpPart) with
          | .error e => .error e
          | .ok ((r, c), ls') => .ok ((r, c), l' :: ls')

/-- `SpectralModel.__call__`: `rp = zeros(len(w))`, `cp = zeros(len(w))`,
then each lineshape's parts are accumulated. -/
def modelCall (lib : Lib) (m : SpectralModel) (w : List ℚ) :
    Except String ((List ℚ × List ℚ) × SpectralModel) :=
  match modelCallAux lib w m.lineshapes (List.replicate w.length 0) (List.replicate w.length 0) with
  | .error e => .error e
  | .ok (rc, ls') => .ok (rc, { m with lineshapes := ls' })

/-- Elementwise sum of a family of arrays starting from `zeros n`; this is
the accumulation `SpectralModel.__call__` performs. -/
def sumLists (n : ℕ) (ls : List (List ℚ)) : List ℚ :=
  ls.foldl zipAdd (List.replicate n 0)

/-- numpy `dot` of two 1-d arrays. -/
def dotQ (a b : List ℚ) : ℚ := (List.zipWith (fun x y => x * y) a b).sum

/-- `diffsq` nested in `SpectralModel.fit_model`: sets the parameters, calls
the model, and returns the sum of squared relative residuals of the real and
imaginary parts (the longitudinal terms are commented out in the source). -/
def fit_model_diffsq (lib : Lib) (m : SpectralModel) (dataX datarp datacp params : List ℚ) :
    Except String (ℚ × SpectralModel) :=
  match m.setparams params with
  | .error e => .error e
  | .ok m1 =>
      match modelCall lib m1 dataX with
      | .error e => .error e
      | .ok ((rp, cp), m2) =>
          let diffrp := List.zipWith (fun d r => (d - r) / d) datarp rp
          let diffcp := List.zipWith (fun d c => (d - c) / d) datacp cp
          .ok (dotQ diffcp diffcp + dotQ diffrp diffrp, m2)

/-- `costfun` nested in `SpectralModel.fit_model`: the value handed to
`differential_evolution`, namely `diffsq(params) + 100*fsumpenalty**2` with
`fsumpenalty = (datarp[0] - self.fsum())/datarp[0]` (`fsum` is evaluated
after `diffsq` has stored the new parameters). -/
def fit_model_costfun (lib : Lib) (m : SpectralModel) (dataX datarp datacp params : List ℚ) :
    Except String (ℚ × SpectralModel) :=
  match fit_model_diffsq lib m dataX datarp datacp params with
  | .error e => .error e
  | .ok (er, m') =>
      if datarp.length = 0 then .error "IndexError: index 0 is out of bounds"
      else
        let fsumpenalty := (datarp.headD 0 - m'.fsum) / datarp.headD 0
        .ok (er + 100 * fsumpenalty ^ 2, m')

/-- Loop body of `gLST_LHS`: `ratios[i]` starts at 0; the first `if` fills it
for type `"Debye"`, the second (checked afterwards, as in the source) for
types `"DHO"`, `"VanVleck"`, `"BrendelDHO"`; any other type leaves the 0. -/
def gLST_ratio (mL mT : SpectralModel) (i : ℕ) : ℚ :=
  let l := mL.lineshapes.getD i dfltLS
  let t := mT.lineshapes.getD i dfltLS
  let r0 : ℚ := 0
  let r1 := if l.type = "Debye" then l.p.getD 1 0 / t.p.getD 1 0 else r0
  if l.type = "DHO" ∨ l.type = "VanVleck" ∨ l.type = "BrendelDHO" then
    (l.p.getD 1 0 ^ 2 + l.p.getD 2 0 ^ 2) / t.p.getD 1 0 ^ 2
  else r1

/-- `gLST_LHS`: asserts the two models have the same `numlineshapes`, fills
the `ratios` array and returns `prod(ratios)`. -/
def gLST_LHS (mL mT : SpectralModel) : Except String ℚ :=
  if mL.numlineshapes = mT.numlineshapes then
    .ok ((List.range mL.numlineshapes).map (gLST_ratio mL mT)).prod
  else .error "AssertionError"

/-- The quantity `( gLST_LHS(modelL, modelT) - gLST_RHS )**2` computed inside
`costfun` of `fit_model_gLST_constraint`, with `gLST_RHS = eps0/eps_inf`,
`eps0 = Tdatarp[0]`, `eps_inf = Tdatarp[-1]`.  The source computes this
value and then DISCARDS it: the `return` line reads
`return diffsq(paramsL, paramsT) # + 50*fsumpenalty + 50*gLSTpenalty`. -/
def gLSTpenalty (mL mT : SpectralModel) (Tdatarp : List ℚ) : Except String ℚ :=
  match gLST_LHS mL mT with
  | .error e => .error e
  | .ok lhs => .ok ((lhs - Tdatarp.headD 0 / Tdatarp.getLastD 0) ^ 2)

/-- `diffsq` nested in `fit_model_gLST_constraint`: sets both models'
parameters, evaluates both on `dataX`, and sums the squares of
`Ldiff = (Ldatarp - Lrp)/Ldatarp + (Ldatacp - Lcp)/Ldatacp` and
`Tdiff = (Tdatarp - Trp)/Tdatarp + (Tdatacp - Tcp)/Tdatacp`, where the
longitudinal data `Ldatarp`, `Ldatacp` are computed from the transverse data
in the enclosing function. -/
def gLST_diffsq (lib : Lib) (modelL modelT : SpectralModel)
    (dataX Tdatarp Tdatacp paramsL paramsT : List ℚ) :
    Except String (ℚ × SpectralModel × SpectralModel) :=
  let Ldatarp := List.zipWith (fun r c => r / (r ^ 2 + c ^ 2)) Tdatarp Tdatacp
  let Ldatacp := List.zipWith (fun r c => c / (r ^ 2 + c ^ 2)) Tdatarp Tdatacp
  match modelL.setparams paramsL with
  | .error e => .error e
  | .ok mL1 =>
      match modelT.setparams paramsT with
      | .error e => .error e
      | .ok mT1 =>
          match modelCall lib mL1 dataX with
          | .error e => .error e
          | .ok ((Lrp, Lcp), mL2) =>
              match modelCall lib mT1 dataX with
              | .error e => .error e
              | .ok ((Trp, Tcp), mT2) =>
                  let Ldiff := List.zipWith
                    (fun dd rc => (dd.1 - rc.1) / dd.1 + (dd.2 - rc.2) / dd.2)
                    (Ldatarp.zip Ldatacp) (Lrp.zip Lcp)
                  let Tdiff := List.zipWith
                    (fun dd rc => (dd.1 - rc.1) / dd.1 + (dd.2 - rc.2) / dd.2)
                    (Tdatarp.zip Tdatacp) (Trp.zip Tcp)
                  .ok (dotQ Tdiff Tdiff + dotQ Ldiff Ldiff, mL2, mT2)

/-- `costfun` nested in `fit_model_gLST_constraint`: the value handed to
`differential_evolution`.  It splits `params` in half, computes `eps0`,
`eps_inf`, `fsumpenalty` and `gLSTpenalty` (all discarded, see
`gLSTpenalty`), and returns `diffsq(paramsL, paramsT)` alone — the penalty
terms are commented out of the `return` expression in the source. -/
def gLST_costfun (lib : Lib) (modelL modelT : SpectralModel)
    (dataX Tdatarp Tdatacp params : List ℚ) :
    Except String (ℚ × SpectralModel × SpectralModel) :=
  let paramsL := params.take (params.length / 2)
  let paramsT := params.drop (params.length / 2)
  gLST_diffsq lib modelL modelT dataX Tdatarp Tdatacp paramsL paramsT

/- Embedding of the standalone script `kw.py`.  The script loads the
correlation data from files; the pipeline below is therefore a function of
one correlation-function column `corr` (so `ntimesteps = corr.length`), the
`timestep`, the static susceptibility `chik0[k]` of that column, and
`num_points` (hard-coded to 1000 in the script).  `numpy.fft.ifft` is
embedded exactly as the inverse discrete Fourier transform
`y[m] = (1/N) * sum_j a[j] * omega^(j*m)` with `omega` the primitive `N`-th
root of unity `exp(2*pi*i/N)` passed explicitly; for the sizes used in the
theorems below (`N` dividing 4) that root lies in `ℚ(i)`, so the transform
is exact rational arithmetic. -/

/-- `int(2**ceil(log2(n)))`: the FFT length used by `kw.py`. -/
def kw_nextpow2 (n : ℕ) : ℕ := 2 ^ Nat.clog 2 n

/-- `tderiv = diff(corr_funs[:,k])/timestep` (note: no minus sign here,
unlike `StretchedExp.calc_eps`). -/
def kw_tderiv (corr : List ℚ) (timestep : ℚ) : List ℚ :=
  (listDiff corr).map fun d => d / timestep

/-- Inverse discrete Fourier transform of a real array zero-padded (or
truncated) to length `N`, with the primitive root `ω` given explicitly:
`y[m] = (1/N) * sum_{j<N} a[j] * ω^(j*m)`.  With `ω = exp(2πi/N)` this is
exactly `numpy.fft.ifft(a, N)`. -/
def idft (N : ℕ) (ω : CQ) (a : List ℚ) : List CQ :=
  (List.range N).map fun m =>
    CQ.ofQ (1 / (N : ℚ)) * ((List.range N).map fun j => CQ.ofQ (a.getD j 0) * ω ^ (j * m)).sum

/-- numpy `mean` of a complex array slice. -/
def kw_mean (l : List CQ) : CQ := CQ.ofQ (1 / (l.length : ℚ)) * l.sum

/-- The `temp` array after the averaging loop
`for i in xrange(1, num_points-1): temp[i-1] = mean(y[(i-1)*navg : i*navg])`:
entry `j` holds the mean of block `j` for `j < num_points - 2`, while the
entries `num_points - 2` and `num_points - 1` keep their initial value 0. -/
def kw_temp (y : List CQ) (num_points navg : ℕ) : List CQ :=
  (List.range num_points).map fun j =>
    if j < num_points - 2 then kw_mean ((y.drop (j * navg)).take navg) else 0

/-- One column of `chikw` as `kw.py` computes it:
`chikw[:,k] = -chik0[k]*imag(temp)` with `temp` the block-averaged
`y = fft.ifft(diff(corr)/timestep, nextpow2)` and
`navg = floor(ntimesteps/num_points)`. -/
def chikwColumn (ω : CQ) (corr : List ℚ) (timestep chik0k : ℚ) (num_points : ℕ) : List ℚ :=
  let ntimesteps := corr.length
  let navg := ntimesteps / num_points
  let y := idft (kw_nextpow2 ntimesteps) ω (kw_tderiv corr timestep)
  (kw_temp y num_points navg).map fun z => -chik0k * z.im

/-- The column as the claim words it (refinement reference, written from the
claim, not from the source): `-chik0[k]` times the imaginary part of the
inverse FFT of the discrete forward time-derivative, block-averaged down to
`num_points` values — i.e. all `num_points` entries are block means. -/
def chikwColumnClaim (ω : CQ) (corr : List ℚ) (timestep chik0k : ℚ) (num_points : ℕ) : List ℚ :=
  let ntimesteps := corr.length
  let navg := ntimesteps / num_points
  let y := idft (kw_nextpow2 ntimesteps) ω (kw_tderiv corr timestep)
  ((List.range num_points).map fun j => kw_mean ((y.drop (j * navg)).take navg)).map
    fun z => -chik0k * z.im

/- Concrete objects used by the witnesses and counterexamples below. -/

/-- A concrete interpretation of the library primitives, used where a
theorem needs a closed instance.  (The identity/constant choices are
irrelevant for lineshapes that never call the library.) -/
def lib0 : Lib :=
  { sqrtQ := fun q => q
    csqrt := fun z => z
    expQ := fun _ => 1
    log2Q := fun _ => 0
    rpowQ := fun _ _ => 0
    erfcx := fun _ => ⟨0, 1⟩
    ifftQ := fun _ _ => []
    interpQ := fun _ _ _ => [] }

/-- A `Debye` lineshape with parameters `[1, 1]` (the float-infinite default
bounds have no rational counterpart and no claim reads the bound values, so
finite bounds are used here). -/
def debye0 : LS :=
  mkDebye [1, 1] [(0, 10000), (0, 10000)] "Debye"

/-- A `Debye` lineshape with parameters `[1, 2]`. -/
def debyeL0 : LS :=
  mkDebye [1, 2] [(0, 10000), (0, 10000)] "Debye"

/-- `BrendelDHO()` with parameters `[1, 1, 0, 1]` (zero damping); its `f`
attribute is 0 after `__init__`. -/
def brendel0 : LS := mkBrendelDHO [1, 1, 0, 1] [(0, 10000)] "BrendelDHO"

/-- `VanVleck()` with its default parameters `[1, 1, 1]`. -/
def vanvleck0 : LS := mkVanVleck [1, 1, 1] [] "VanVleck"

/-- `Gaussian()` with its default parameters `[1, 1, 1]`. -/
def gauss0 : LS := mkGaussian [1, 1, 1] [] "Gaussian"

/-- `constant()` with its default parameter `[1]`. -/
def constant0 : LS := mkConstant [1] [(0, 10000)] "Eps inf"

/-- A model holding one Debye lineshape, built with `add` (so its counter
invariant holds). -/
def modelT0 : SpectralModel := (SpectralModel.init []).add debye0

/-- A model holding one Debye lineshape with `wD = 2`. -/
def modelL0 : SpectralModel := (SpectralModel.init []).add debyeL0

/-- A model holding one `constant` lineshape. -/
def modelC0 : SpectralModel := (SpectralModel.init []).add constant0

/- Helper lemmas shared by the theorems below. -/

/-- The `getparams` fold is the concatenation of the parameter lists. -/
lemma foldl_append_params (ls : List LS) (acc : List ℚ) :
    ls.foldl (fun a l => a ++ l.p) acc = acc ++ (ls.map fun l => l.p).flatten := by
  induction ls generalizing acc with
  | nil => simp
  | cons l ls ih => simp [ih, List.append_assoc]

/-- `setparamsLS` succeeds on a parameter list of exactly the total length
and distributes it over the lineshapes. -/
lemma setparamsLS_total (ls : List LS) (ps : List ℚ)
    (h : ps.length = (ls.map fun l => l.p.length).sum) :
    ∃ ls', SpectralModel.setparamsLS ls ps = .ok ls' ∧
      (ls'.map fun l => l.p).flatten = ps ∧
      ls'.map (fun l => l.p.length) = ls.map (fun l => l.p.length) := by
  induction ls generalizing ps with
  | nil =>
      refine ⟨[], rfl, ?_, rfl⟩
      simp at h
      simp [h]
  | cons l ls ih =>
      simp at h
      have hle : l.p.length ≤ ps.length := by omega
      have hdrop : (ps.drop l.p.length).length = ((ls.map fun l => l.p.length).sum) := by
        simp [hle, h]
      obtain ⟨ls', hok, hjoin, hlen⟩ := ih (ps.drop l.p.length) hdrop
      refine ⟨{ l with p := ps.take l.p.length } :: ls', ?_, ?_, ?_⟩
      · simp only [SpectralModel.setparamsLS, if_pos hle, hok]
      · simp [hjoin, List.length_take, min_eq_left hle]
      · simp [List.length_take, min_eq_left hle, hlen]

/-- Feeding a model its own concatenated parameters back leaves it unchanged. -/
lemma setparamsLS_self (ls : List LS) (rest : List ℚ) :
    SpectralModel.setparamsLS ls ((ls.map fun l => l.p).flatten ++ rest) = .ok ls := by
  induction ls generalizing rest with
  | nil => rfl
  | cons l ls ih =>
      simp only [List.map_cons, List.flatten_cons, List.append_assoc]
      have h1 : (l.p ++ ((ls.map fun l => l.p).flatten ++ rest)).take l.p.length = l.p := by
        simp
      have h2 : (l.p ++ ((ls.map fun l => l.p).flatten ++ rest)).drop l.p.length =
          (ls.map fun l => l.p).flatten ++ rest := by
        simp
      have hle : l.p.length ≤ (l.p ++ ((ls.map fun l => l.p).flatten ++ rest)).length := by
        simp
      simp only [SpectralModel.setparamsLS, if_pos hle, h2, ih, h1]

/-- C8: setting then getting parameters round-trips.  For every model and
every parameter list `ps` whose length is the total number of lineshape
parameters, `setparams ps` succeeds and `getparams` then returns exactly
`ps`; and `setparams (getparams())` succeeds and returns the model unchanged. -/
theorem setparams_getparams_roundtrip (m : SpectralModel) (ps : List ℚ)
    (_hnum : m.numlineshapes = m.lineshapes.length)
    (h : ps.length = (m.lineshapes.map fun l => l.p.length).sum) :
    (m.setparams ps).map SpectralModel.getparams = .ok ps ∧
      m.setparams m.getparams = .ok m := by
  constructor
  · obtain ⟨ls', hok, hjoin, _⟩ := setparamsLS_total m.lineshapes ps h
    simp [SpectralModel.setparams, hok, Except.map, SpectralModel.getparams,
      foldl_append_params, hjoin]
  · have := setparamsLS_self m.lineshapes []
    simp only [List.append_nil] at this
    simp [SpectralModel.setparams, SpectralModel.getparams, foldl_append_params, this]

/-- C8 witness at a concrete model. -/
theorem setparams_getparams_roundtrip_witness :
    (modelT0.setparams [3, 4]).map SpectralModel.getparams = .ok [3, 4] ∧
      modelT0.setparams modelT0.getparams = .ok modelT0 :=
  setparams_getparams_roundtrip modelT0 [3, 4] (by decide) (by decide)

/-- Building a model by `add` steps preserves the counter invariant. -/
lemma foldl_add_invariant (adds : List LS) (m : SpectralModel)
    (h : m.numlineshapes = m.lineshapes.length) :
    (adds.foldl SpectralModel.add m).numlineshapes =
      (adds.foldl SpectralModel.add m).lineshapes.length := by
  induction adds generalizing m with
  | nil => exact h
  | cons a as ih => exact ih _ (by simp [SpectralModel.add, h])

/-- C9: the invariant `numlineshapes == len(lineshapes)` holds for models
built with the zero-argument constructor and grown only by `add` (which
appends the lineshape and bumps the counter); the constructor itself does
NOT establish it for a nonempty initial list, since it always sets
`numlineshapes = 0`, so `fsum` and `getfreqs` (which iterate over
`range(numlineshapes)`) ignore lineshapes supplied at construction. -/
theorem numlineshapes_invariant :
    (∀ (m : SpectralModel) (l : LS),
        (m.add l).lineshapes = m.lineshapes ++ [l] ∧
        (m.add l).numlineshapes = m.numlineshapes + 1) ∧
    (∀ adds : List LS,
        (adds.foldl SpectralModel.add (SpectralModel.init [])).numlineshapes =
          (adds.foldl SpectralModel.add (SpectralModel.init [])).lineshapes.length) ∧
    (∀ ls : List LS, ls ≠ [] →
        (SpectralModel.init ls).numlineshapes = 0 ∧
        (SpectralModel.init ls).numlineshapes ≠ ls.length ∧
        (SpectralModel.init ls).fsum = 0 ∧
        (SpectralModel.init ls).getfreqs = []) := by
  refine ⟨fun m l => ⟨rfl, rfl⟩, fun adds => foldl_add_invariant adds _ rfl, fun ls hne => ?_⟩
  refine ⟨rfl, ?_, rfl, rfl⟩
  intro h0
  exact hne (List.length_eq_zero.mp h0.symm)

/-- C9 witness: a model constructed directly from a nonempty list violates
the invariant. -/
theorem numlineshapes_invariant_witness :
    ([debye0] : List LS) ≠ [] ∧
      (SpectralModel.init [debye0]).numlineshapes ≠ ([debye0] : List LS).length :=
  ⟨by decide, (numlineshapes_invariant.2.2 [debye0] (by decide)).2.1⟩

/-- Unrolling of the accumulation loop of `SpectralModel.__call__` when every
lineshape call succeeds. -/
lemma modelCallAux_ok (lib : Lib) (w : List ℚ) :
    ∀ (ls : List LS) (rs : List ((List ℚ × List ℚ) × LS)) (rp cp : List ℚ),
      ls.map (fun l => evalLS lib l w) = rs.map Except.ok →
      modelCallAux lib w ls rp cp =
        .ok ((rs.foldl (fun a r => zipAdd a r.1.1) rp,
              rs.foldl (fun a r => zipAdd a r.1.2) cp),
             rs.map fun r => r.2) := by
  intro ls
  induction ls with
  | nil =>
      intro rs rp cp h
      have : rs = [] := by
        cases rs with
        | nil => rfl
        | cons r rs => simp at h
      subst this
      rfl
  | cons l ls ih =>
      intro rs rp cp h
      cases rs with
      | nil => simp at h
      | cons r rs =>
          simp only [List.map_cons, List.cons.injEq] at h
          obtain ⟨⟨rpPart, cpPart⟩, l'⟩ := r
          simp only [modelCallAux, h.1, ih rs _ _ h.2, List.foldl_cons, List.map_cons]

/-- C2: lineshapes combine additively.  If each constituent lineshape of a
model (whose counter invariant holds) evaluates at `w` to the pair/object in
`rs`, then `SpectralModel.__call__` returns the elementwise sums of the real
parts and of the imaginary parts, together with the updated lineshapes. -/
theorem spectral_model_call_additive (lib : Lib) (m : SpectralModel) (w : List ℚ)
    (rs : List ((List ℚ × List ℚ) × LS))
    (_hnum : m.numlineshapes = m.lineshapes.length)
    (h : m.lineshapes.map (fun l => evalLS lib l w) = rs.map Except.ok) :
    modelCall lib m w =
      .ok ((sumLists w.length (rs.map fun r => r.1.1),
            sumLists w.length (rs.map fun r => r.1.2)),
           { m with lineshapes := rs.map fun r => r.2 }) := by
  simp only [modelCall, modelCallAux_ok lib w m.lineshapes rs _ _ h, sumLists,
    List.foldl_map]

/-- C2 witness at a one-Debye model and `w = [1]`. -/
theorem spectral_model_call_additive_witness :
    (modelT0.lineshapes.map (fun l => evalLS lib0 l [1]) =
        [Except.ok ((([1 / 2], [1 / 2]) : List ℚ × List ℚ), debye0)]) ∧
      modelCall lib0 modelT0 [1] =
        .ok ((sumLists 1 [[1 / 2]], sumLists 1 [[1 / 2]]),
             { modelT0 with lineshapes := [debye0] }) :=
  ⟨by norm_num [modelT0, SpectralModel.init, SpectralModel.add, debye0, mkDebye,
      evalLS, Debye_call],
   spectral_model_call_additive lib0 modelT0 [1] [((([1 / 2], [1 / 2])), debye0)]
     (by norm_num [modelT0, SpectralModel.init, SpectralModel.add])
     (by norm_num [modelT0, SpectralModel.init, SpectralModel.add, debye0, mkDebye,
       evalLS, Debye_call])⟩

/-- Sum over `range n` of an indexed family, as a fold. -/
lemma range_map_getD {α β : Type} (d : α) (g : α → β) (ls : List α) :
    (List.range ls.length).map (fun i => g (ls.getD i d)) = ls.map g := by
  induction ls with
  | nil => rfl
  | cons a as ih =>
      rw [List.length_cons, List.range_succ_eq_map]
      simp only [List.map_cons, List.map_map, Function.comp_def, List.getD_cons_zero,
        List.getD_cons_succ]
      exact congrArg₂ _ rfl ih

/-- C3 helper: with the counter invariant, `fsum` is the plain sum of the
first parameters `p[0]` (the `"BrendelDHO"` string-comparison branch is
never taken, since a number never equals a string in Python). -/
lemma fsum_eq_sum (m : SpectralModel) (hnum : m.numlineshapes = m.lineshapes.length) :
    m.fsum = (m.lineshapes.map fun l => l.p.getD 0 0).sum := by
  unfold SpectralModel.fsum
  simp only [pyEqNumStr, Bool.false_eq_true, if_false, hnum]
  rw [← range_map_getD dfltLS (fun l => l.p.getD 0 0) m.lineshapes, ← List.foldl_map]
  rw [List.sum_eq_foldl]

/-- C3: the single-model fit's cost function is the squared-relative-residual
sum plus the f-sum penalty: whenever `diffsq` succeeds with value `e` and
updated model `m'` (whose counter invariant holds) and the data are
nonempty, `costfun` returns
`e + 100*((datarp[0] - fsum())/datarp[0])**2`, and `fsum()` is the sum of
the first parameter `p[0]` over all lineshapes. -/
theorem fit_model_costfun_eq (lib : Lib) (m : SpectralModel)
    (dataX datarp datacp params : List ℚ) (e : ℚ) (m' : SpectralModel)
    (hd : fit_model_diffsq lib m dataX datarp datacp params = .ok (e, m'))
    (hnum : m'.numlineshapes = m'.lineshapes.length)
    (hne : datarp ≠ []) :
    fit_model_costfun lib m dataX datarp datacp params =
        .ok (e + 100 * ((datarp.headD 0 - m'.fsum) / datarp.headD 0) ^ 2, m') ∧
      m'.fsum = (m'.lineshapes.map fun l => l.p.getD 0 0).sum := by
  constructor
  · simp only [fit_model_costfun, hd]
    rw [if_neg (by simpa using hne)]
  · exact fsum_eq_sum m' hnum

/-- C3 witness at a one-Debye model: `costfun = 13/16 + 100*(1/2)^2`. -/
theorem fit_model_costfun_eq_witness :
    fit_model_diffsq lib0 modelT0 [1] [2] [1] [1, 1] = .ok (13 / 16, modelT0) ∧
      fit_model_costfun lib0 modelT0 [1] [2] [1] [1, 1] =
        .ok (13 / 16 + 100 * ((([2] : List ℚ).headD 0 - modelT0.fsum) /
          ([2] : List ℚ).headD 0) ^ 2, modelT0) :=
  ⟨by norm_num [fit_model_diffsq, modelT0, SpectralModel.init, SpectralModel.add,
      SpectralModel.setparams, SpectralModel.setparamsLS, modelCall, modelCallAux,
      evalLS, Debye_call, debye0, mkDebye, zipAdd, dotQ],
   (fit_model_costfun_eq lib0 modelT0 [1] [2] [1] [1, 1] (13 / 16) modelT0
     (by norm_num [fit_model_diffsq, modelT0, SpectralModel.init, SpectralModel.add,
       SpectralModel.setparams, SpectralModel.setparamsLS, modelCall, modelCallAux,
       evalLS, Debye_call, debye0, mkDebye, zipAdd, dotQ])
     (by norm_num [modelT0, SpectralModel.init, SpectralModel.add])
     (by norm_num)).1⟩

/-- Well-formedness of a model pair for `gLST_LHS`: the counter stays within
the lineshape lists, and wherever a branch of the loop would index into a
parameter list or divide by `modelT.lineshapes[i].p[1]`, that access is
in range and the divisor nonzero — exactly the situations in which the
Python code runs without an `IndexError`/`ZeroDivisionError`, so that the
total-division `getD`-based embedding agrees with it. -/
def gLST_wf (mL mT : SpectralModel) : Prop :=
  mL.numlineshapes ≤ mL.lineshapes.length ∧
  mL.numlineshapes ≤ mT.lineshapes.length ∧
  ∀ j, j < mL.numlineshapes →
    ((mL.lineshapes.getD j dfltLS).type = "Debye" →
      2 ≤ (mL.lineshapes.getD j dfltLS).p.length ∧
      2 ≤ (mT.lineshapes.getD j dfltLS).p.length ∧
      (mT.lineshapes.getD j dfltLS).p.getD 1 0 ≠ 0) ∧
    ((mL.lineshapes.getD j dfltLS).type = "DHO" ∨
     (mL.lineshapes.getD j dfltLS).type = "VanVleck" ∨
     (mL.lineshapes.getD j dfltLS).type = "BrendelDHO" →
      3 ≤ (mL.lineshapes.getD j dfltLS).p.length ∧
      2 ≤ (mT.lineshapes.getD j dfltLS).p.length ∧
      (mT.lineshapes.getD j dfltLS).p.getD 1 0 ≠ 0)

instance (mL mT : SpectralModel) : Decidable (gLST_wf mL mT) := by
  unfold gLST_wf
  exact inferInstance

/-- C10: `gLST_LHS` collapses to zero on unmatched lineshape types.  If some
index `i` below the (equal) counters carries a type outside
`{"Debye", "DHO", "VanVleck", "BrendelDHO"}`, the `ratios` entry of that
index keeps its initial value 0 and the returned product is 0. -/
theorem gLST_LHS_unmatched_type_zero (mL mT : SpectralModel) (i : ℕ)
    (hnum : mL.numlineshapes = mT.numlineshapes)
    (_hwf : gLST_wf mL mT)
    (hi : i < mL.numlineshapes)
    (ht : (mL.lineshapes.getD i dfltLS).type ∉
      (["Debye", "DHO", "VanVleck", "BrendelDHO"] : List String)) :
    gLST_LHS mL mT = .ok 0 := by
  simp only [List.mem_cons, List.mem_singleton, not_or] at ht
  obtain ⟨h1, h2, h3, h4⟩ := ht
  unfold gLST_LHS
  rw [if_pos hnum]
  refine congrArg Except.ok (List.prod_eq_zero ?_)
  refine List.mem_map.mpr ⟨i, List.mem_range.mpr hi, ?_⟩
  unfold gLST_ratio
  simp only [List.getD_eq_getElem?_getD] at h1 h2 h3 h4
  simp [h1, h2, h3, h4.1]

/-- C10 witness: a `constant` lineshape (type `"Constant"`) against a Debye
model produces `gLST_LHS = 0`. -/
theorem gLST_LHS_unmatched_type_zero_witness :
    ((modelC0.lineshapes.getD 0 dfltLS).type ∉
        (["Debye", "DHO", "VanVleck", "BrendelDHO"] : List String)) ∧
      gLST_LHS modelC0 modelT0 = .ok 0 :=
  ⟨by decide,
   gLST_LHS_unmatched_type_zero modelC0 modelT0 0 (by decide) (by decide)
     (by decide) (by decide)⟩

/-- C1 (code bug): the cost function that `fit_model_gLST_constraint` hands
to `differential_evolution` returns the squared residual sum ALONE — the
gLST penalty is computed and then dropped, because the penalty terms are
commented out of the `return` line (`return diffsq(paramsL, paramsT)
# + 50*fsumpenalty + 50*gLSTpenalty`), contradicting the enclosing
function's own docstring ("fit ... with the gLST constraint").  At the
concrete input below the penalty is 1 (nonzero: `gLST_LHS = 2` against
`eps0/eps_inf = 1`), yet `costfun` returns exactly the bare `diffsq` value
`89/16`, so no positive multiple of the penalty is included. -/
theorem gLST_costfun_drops_penalty :
    (gLST_costfun lib0 modelL0 modelT0 [1] [2] [1] [1, 2, 1, 1]).map Prod.fst =
        .ok (89 / 16) ∧
      (gLST_diffsq lib0 modelL0 modelT0 [1] [2] [1] [1, 2] [1, 1]).map Prod.fst =
        .ok (89 / 16) ∧
      gLSTpenalty modelL0 modelT0 [2] = .ok 1 := by
  refine ⟨?_, ?_, ?_⟩
  · norm_num [gLST_costfun, gLST_diffsq, modelL0, modelT0, SpectralModel.init,
      SpectralModel.add, SpectralModel.setparams, SpectralModel.setparamsLS,
      modelCall, modelCallAux, evalLS, Debye_call, debye0, debyeL0, mkDebye,
      zipAdd, dotQ, Except.map]
  · norm_num [gLST_diffsq, modelL0, modelT0, SpectralModel.init,
      SpectralModel.add, SpectralModel.setparams, SpectralModel.setparamsLS,
      modelCall, modelCallAux, evalLS, Debye_call, debye0, debyeL0, mkDebye,
      zipAdd, dotQ, Except.map]
  · norm_num [gLSTpenalty, gLST_LHS, gLST_ratio, modelL0, modelT0,
      SpectralModel.init, SpectralModel.add, debye0, debyeL0, mkDebye,
      List.range_succ, show ("Debye" = "DHO") = False from by simp,
      show ("Debye" = "VanVleck") = False from by simp,
      show ("Debye" = "BrendelDHO") = False from by simp]

/-- C5 (code bug): the Van Vleck and Gaussian lineshapes are NOT evaluable:
their `__call__` bodies apply the float `p1**2 + p2**2` as a function (a
`*` is missing before the bracket), so every call raises `TypeError` — here
shown at parameters `[1, 1, 1]` and `w = [1]`, where all the denominators
`(wT ± w)**2 + gamma**2` are nonzero. -/
theorem vanvleck_gaussian_calls_raise :
    evalLS lib0 vanvleck0 [1] = .error "TypeError: float object is not callable" ∧
      evalLS lib0 gauss0 [1] = .error "TypeError: float object is not callable" :=
  ⟨rfl, rfl⟩

/-- C6 (code bug): `ColeCole.__call__` does not implement the Cole-Cole
model: its body is the plain Debye formula and never reads the exponent
parameter `alpha = p[2]`, so for EVERY `alpha` (and every frequency array)
the returned arrays coincide with those of a Debye lineshape with the same
`f` and `wD` — contradicting the class's own docstring and parameter list. -/
theorem colecole_call_is_debye (p0 p1 alpha : ℚ) (bounds : List (ℚ × ℚ))
    (nm : String) (w : List ℚ) :
    (ColeCole_call (mkColeCole [p0, p1, alpha] bounds nm) w).map Prod.fst =
      (Debye_call (mkDebye [p0, p1] bounds nm) w).map Prod.fst :=
  rfl

/-- Unfolding lemma for complex addition. -/
@[simp] lemma CQ.add_def (a b : CQ) : a + b = ⟨a.re + b.re, a.im + b.im⟩ := rfl

/-- Unfolding lemma for complex negation. -/
@[simp] lemma CQ.neg_def (a : CQ) : -a = ⟨-a.re, -a.im⟩ := rfl

/-- Unfolding lemma for complex subtraction. -/
@[simp] lemma CQ.sub_def (a b : CQ) : a - b = ⟨a.re - b.re, a.im - b.im⟩ := rfl

/-- Unfolding lemma for complex multiplication. -/
@[simp] lemma CQ.mul_def (a b : CQ) :
    a * b = ⟨a.re * b.re - a.im * b.im, a.re * b.im + a.im * b.re⟩ := rfl

/-- Unfolding lemma for complex inversion. -/
@[simp] lemma CQ.inv_def (a : CQ) :
    a⁻¹ = ⟨a.re / (a.re ^ 2 + a.im ^ 2), -a.im / (a.re ^ 2 + a.im ^ 2)⟩ := rfl

/-- Unfolding lemma for complex division. -/
@[simp] lemma CQ.div_def (a b : CQ) : a / b = a * b⁻¹ := rfl

/-- Unfolding lemma for complex zero. -/
@[simp] lemma CQ.zero_re : (0 : CQ).re = 0 := rfl

/-- Unfolding lemma for complex zero. -/
@[simp] lemma CQ.zero_im : (0 : CQ).im = 0 := rfl

/-- Unfolding lemma for the complex one. -/
@[simp] lemma CQ.one_re : (1 : CQ).re = 1 := rfl

/-- Unfolding lemma for the complex one. -/
@[simp] lemma CQ.one_im : (1 : CQ).im = 0 := rfl

/-- Unfolding lemma for complex powers. -/
@[simp] lemma CQ.pow_zero_def (z : CQ) : z ^ (0 : ℕ) = 1 := rfl

/-- Unfolding lemma for complex powers. -/
@[simp] lemma CQ.pow_succ_def (z : CQ) (n : ℕ) : z ^ (n + 1) = z ^ n * z := rfl

/-- C4 counterexample: lineshape evaluation is NOT always stateless.
`BrendelDHO.__call__` assigns `self.f = eps.real[1]`: with the concrete
library interpretation `lib0` and parameters `[1, 1, 0, 1]` at
`w = [2, 3]`, the returned object differs from the input object (its `f`
attribute becomes `-28559/900000 ≠ 0`). -/
theorem lineshape_statelessness_counterexample :
    (evalLS lib0 brendel0 [2, 3]).map (fun r => r.2) ≠ .ok brendel0 := by
  norm_num [evalLS, BrendelDHO_call, brendel0, mkBrendelDHO, lib0, CQ.ofQ, CQ.iu,
    Except.map, LS.mk.injEq]

/-- C4 amended: every lineshape call except `BrendelDHO.__call__` returns its
object with every attribute unchanged, and even `BrendelDHO.__call__`
changes nothing but the `f` attribute. -/
theorem lineshape_calls_touch_only_f (lib : Lib) (l : LS) (w : List ℚ)
    (out : (List ℚ × List ℚ) × LS) (hok : evalLS lib l w = .ok out) :
    (l.kind ≠ LSKind.brendelDHO → out.2 = l) ∧
      (out.2.p = l.p ∧ out.2.bounds = l.bounds ∧ out.2.name = l.name ∧
       out.2.type = l.type ∧ out.2.convfac = l.convfac ∧ out.2.kind = l.kind) := by
  obtain ⟨p, bounds, name, type, f, convfac, kind⟩ := l
  cases kind with
  | debye =>
      simp only [evalLS, Debye_call] at hok
      injection hok with h
      subst h
      exact ⟨fun _ => rfl, rfl, rfl, rfl, rfl, rfl, rfl⟩
  | dho =>
      simp only [evalLS, DHO_call] at hok
      injection hok with h
      subst h
      exact ⟨fun _ => rfl, rfl, rfl, rfl, rfl, rfl, rfl⟩
  | brendelDHO =>
      simp only [evalLS, BrendelDHO_call] at hok
      split at hok
      · injection hok with h
        subst h
        exact ⟨fun hne => absurd rfl hne, rfl, rfl, rfl, rfl, rfl, rfl⟩
      · simp at hok
  | stretchedExp =>
      simp only [evalLS, StretchedExp_call] at hok
      injection hok with h
      subst h
      exact ⟨fun _ => rfl, rfl, rfl, rfl, rfl, rfl, rfl⟩
  | powerLawDebye =>
      simp only [evalLS, PowerLawDebye_call] at hok
      injection hok with h
      subst h
      exact ⟨fun _ => rfl, rfl, rfl, rfl, rfl, rfl, rfl⟩
  | coleCole =>
      simp only [evalLS, ColeCole_call] at hok
      injection hok with h
      subst h
      exact ⟨fun _ => rfl, rfl, rfl, rfl, rfl, rfl, rfl⟩
  | vanVleck =>
      simp only [evalLS, VanVleck_call, pyCallNum] at hok
      exact Except.noConfusion hok
  | gaussian =>
      simp only [evalLS, Gaussian_call, pyCallNum] at hok
      exact Except.noConfusion hok
  | const =>
      simp only [evalLS, constant_call] at hok
      injection hok with h
      subst h
      exact ⟨fun _ => rfl, rfl, rfl, rfl, rfl, rfl, rfl⟩

/-- C4 witness: the amended statelessness theorem applied to a concrete
Debye call. -/
theorem lineshape_calls_touch_only_f_witness :
    evalLS lib0 debye0 [1] = .ok ((([1 / 2], [1 / 2]) : List ℚ × List ℚ), debye0) ∧
      ((([1 / 2], [1 / 2]) : List ℚ × List ℚ), debye0).2 = debye0 :=
  ⟨by norm_num [evalLS, Debye_call, debye0, mkDebye],
   (lineshape_calls_touch_only_f lib0 debye0 [1] ((([1 / 2], [1 / 2])), debye0)
       (by norm_num [evalLS, Debye_call, debye0, mkDebye])).1
     (by decide)⟩

/-- The FFT length for four timesteps is four. -/
lemma kw_nextpow2_four : kw_nextpow2 4 = 4 := by
  unfold kw_nextpow2
  rw [show (4 : ℕ) = 2 ^ 2 by norm_num, Nat.clog_pow _ _ (by norm_num)]

/-- C7 counterexample: `chikw[:,k]` is NOT the full block-average of the
inverse FFT.  With four timesteps `corr = [0,1,0,0]`, `timestep = 1`,
`chik0[k] = 1` and `num_points = 3` (and `ω = i`, the primitive fourth root
of unity, so the embedded `idft` is exactly `numpy.fft.ifft`), the code
produces `[0, 0, 0]` while the claim's full block-average produces
`[0, 1/4, 0]`: the loop `for i in xrange(1, num_points-1)` never fills the
last two entries. -/
theorem chikw_column_counterexample :
    chikwColumn ⟨0, 1⟩ [0, 1, 0, 0] 1 1 3 ≠ chikwColumnClaim ⟨0, 1⟩ [0, 1, 0, 0] 1 1 3 := by
  norm_num [chikwColumn, chikwColumnClaim, kw_temp, kw_mean, idft, kw_tderiv,
    kw_nextpow2_four, listDiff, CQ.ofQ, List.range_succ]

/-- C7 amended: one column of `chikw` equals the claimed
`-chik0[k] * imag(block averages of ifft(diff(corr)/timestep, nextpow2))`
only in its first `num_points - 2` entries; the final two entries are 0,
because the averaging loop runs `xrange(1, num_points-1)`. -/
theorem chikw_column_blocks (ω : CQ) (corr : List ℚ) (timestep chik0k : ℚ)
    (np : ℕ) (h : 2 ≤ np) :
    chikwColumn ω corr timestep chik0k np =
      (chikwColumnClaim ω corr timestep chik0k np).take (np - 2) ++ [0, 0] := by
  obtain ⟨k, rfl⟩ : ∃ k, np = k + 2 := ⟨np - 2, (Nat.sub_add_cancel h).symm⟩
  simp only [chikwColumn, chikwColumnClaim, kw_temp, Nat.add_sub_cancel]
  rw [List.map_map, List.map_map, ← List.map_take, List.take_range,
    min_eq_left (by omega)]
  rw [show k + 2 = (k + 1) + 1 from rfl, List.range_succ, List.range_succ]
  simp only [List.map_append, List.map_cons, List.map_nil, Function.comp_def]
  rw [List.map_congr_left (fun j hj => by
    rw [if_pos (by simpa using List.mem_range.mp hj)])]
  simp [mul_comm]

/-- C7 witness: the amended block-average description at a concrete input
with four timesteps and `num_points = 4`. -/
theorem chikw_column_blocks_witness :
    (2 ≤ 4) ∧
      chikwColumn ⟨0, 1⟩ [0, 1, 0, 0] 1 1 4 =
        (chikwColumnClaim ⟨0, 1⟩ [0, 1, 0, 0] 1 1 4).take 2 ++ [0, 0] :=
  ⟨by decide, chikw_column_blocks ⟨0, 1⟩ [0, 1, 0, 0] 1 1 4 (by decide)⟩
